import Mathlib

/-!
Verification of the sampler core of the `ruis` tracker (src/sampler.rs).

The embedding below translates `src/sampler.rs` into Lean. `f32` values are
modelled as exact rationals (`ℚ`); `f32::powf` is modelled exactly at the
integer exponents that arise in the verified claims (see `powf`). Machine
integers (`u8`, `usize`, `u32`) are modelled as `ℕ`, with the `as i8` cast
and its release-mode wrap-around made explicit (`asI8`, `i8wrap`).
Fallible code (the `sound.buf[pos]` indexing in `render`, which panics when
out of bounds, and the `unwrap` of a busy voice's sound) is modelled with
`Option`: `none` means the Rust code panics.

The crate modules `crate::audio` (the `Stereo`/`Frame` type), `crate::env`
(the `Envelope`), `crate::engine` (the `TrackContext` sound lookup) and the
crate-level constant `SAMPLE_RATE` are not part of the sources; they are
modelled from the spec where needed, as indicated on each definition.
-/

/-- Modelled from the spec: `crate::audio`'s `Stereo` frame (a `Frame<2>`)
is not under src/. Per spec §3 a frame is two float channels with addition
and scalar multiplication defined component-wise. -/
structure Stereo where
  left : ℚ
  right : ℚ
deriving DecidableEq

instance : Add Stereo := ⟨fun a b => ⟨a.left + b.left, a.right + b.right⟩⟩

instance : HMul Stereo ℚ Stereo := ⟨fun a w => ⟨a.left * w, a.right * w⟩⟩

/-- Modelled from the spec: channel accessor used by `load_sound`
(`frame.channel(0)` / `frame.channel(1)`). -/
def Stereo.channel (f : Stereo) (i : ℕ) : ℚ :=
  if i = 0 then f.left else f.right

theorem Stereo.add_def (a b : Stereo) :
    a + b = ⟨a.left + b.left, a.right + b.right⟩ := rfl

theorem Stereo.mul_def (a : Stereo) (w : ℚ) :
    a * w = ⟨a.left * w, a.right * w⟩ := rfl

/-- States of the envelope generator (`crate::env::State`, imported by
sampler.rs as `EnvelopeState`). Modelled from the spec §3/§4.1. -/
inductive EnvelopeState where
  | Idle
  | Attack
  | Decay
  | Sustain
  | Release
deriving DecidableEq

/-- Modelled from the spec: `crate::env::Envelope` is not under src/.
Per spec §3/§4.1 it carries the four ADSR parameters, a state, a current
amplitude and a time accumulator; `phaseStart` records the amplitude at the
entry of the current phase, so that each phase interpolates linearly from
the amplitude it started at (spec §4.1: attack rises "from its current
value", release falls "from its current value"). -/
structure Envelope where
  attack : ℚ
  decay : ℚ
  sustain : ℚ
  release : ℚ
  state : EnvelopeState
  amplitude : ℚ
  time : ℚ
  phaseStart : ℚ
deriving DecidableEq

/-- Envelope construction as invoked by `Voice::new` in sampler.rs:
`Envelope::new(attack, decay, sustain, release)` starting Idle at
amplitude 0. -/
def Envelope.new (a d s r : ℚ) : Envelope :=
  { attack := a, decay := d, sustain := s, release := r,
    state := EnvelopeState.Idle, amplitude := 0, time := 0, phaseStart := 0 }

/-- Modelled from the spec (§4.1): `value(gate)` is called once per output
frame and advances internal time by one output-sample period `dt`. A gate
of 1 from Idle/Release starts Attack from the current amplitude; a gate of
0 from a sounding state starts Release from the current amplitude. Each
phase interpolates linearly; zero-length phases are traversed in a single
sample (the `attack ≤ t` tests fire immediately when the duration is 0). -/
def Envelope.value (e : Envelope) (dt gate : ℚ) : ℚ × Envelope :=
  let e1 :=
    if gate = 1 then
      if e.state = EnvelopeState.Idle ∨ e.state = EnvelopeState.Release then
        { e with state := EnvelopeState.Attack, time := 0, phaseStart := e.amplitude }
      else e
    else
      if e.state = EnvelopeState.Attack ∨ e.state = EnvelopeState.Decay ∨
          e.state = EnvelopeState.Sustain then
        { e with state := EnvelopeState.Release, time := 0, phaseStart := e.amplitude }
      else e
  match e1.state with
  | EnvelopeState.Idle => (0, { e1 with amplitude := 0 })
  | EnvelopeState.Attack =>
    let t := e1.time + dt
    if e1.attack ≤ t then
      (1, { e1 with state := EnvelopeState.Decay, time := 0, amplitude := 1, phaseStart := 1 })
    else
      let a := e1.phaseStart + (1 - e1.phaseStart) * (t / e1.attack)
      (a, { e1 with time := t, amplitude := a })
  | EnvelopeState.Decay =>
    let t := e1.time + dt
    if e1.decay ≤ t then
      (e1.sustain, { e1 with state := EnvelopeState.Sustain, time := 0,
                             amplitude := e1.sustain, phaseStart := e1.sustain })
    else
      let a := 1 + (e1.sustain - 1) * (t / e1.decay)
      (a, { e1 with time := t, amplitude := a })
  | EnvelopeState.Sustain => (e1.sustain, { e1 with amplitude := e1.sustain })
  | EnvelopeState.Release =>
    let t := e1.time + dt
    if e1.release ≤ t then
      (0, { e1 with state := EnvelopeState.Idle, time := 0, amplitude := 0, phaseStart := 0 })
    else
      let a := e1.phaseStart * (1 - t / e1.release)
      (a, { e1 with time := t, amplitude := a })

/-- The decoded PCM sound of sampler.rs (`struct Sound`). The `path` field
is dropped (it is never read by the verified operations). -/
structure Sound where
  buf : List Stereo
  sample_rate : ℕ
  offset : ℕ
deriving DecidableEq

/-- The silence threshold `const SILENCE: f32 = 0.01` of `load_sound`. -/
def SILENCE : ℚ := 1 / 100

/-- The offset scan of `load_sound` (sampler.rs lines 79-88): starting from
`offset = 0`, skip frames with `frame.channel(0) < SILENCE &&
frame.channel(1) < SILENCE`, set `offset = i` at the first other frame and
stop; if every frame is skipped the offset stays 0. -/
def soundOffsetAux : ℕ → List Stereo → ℕ
  | _, [] => 0
  | i, f :: rest =>
    if f.channel 0 < SILENCE ∧ f.channel 1 < SILENCE then soundOffsetAux (i + 1) rest
    else i

/-- Offset computed by `load_sound` over the decoded frames. -/
def soundOffset (samples : List Stereo) : ℕ := soundOffsetAux 0 samples

/-- Spec-mandated offset for comparison with `soundOffset` (spec §4.2 and
§9: "the first frame whose absolute amplitude on either channel meets the
silence threshold 0.01"; "the spec mandates absolute-value comparison").
This follows the spec's words, not the source. -/
def soundOffsetSpecAux : ℕ → List Stereo → ℕ
  | _, [] => 0
  | i, f :: rest =>
    if SILENCE ≤ |f.channel 0| ∨ SILENCE ≤ |f.channel 1| then i
    else soundOffsetSpecAux (i + 1) rest

/-- Spec-mandated offset over the decoded frames. -/
def soundOffsetSpec (samples : List Stereo) : ℕ := soundOffsetSpecAux 0 samples

/-- The tail of `load_sound` (sampler.rs lines 63-95) after WAV decoding:
the construction of the `Sound` value from the decoded frame list and the
wav sample rate. The hound decode itself is external I/O (spec §1 treats
WAV parsing as a non-goal), so the embedding starts from the decoded
samples. -/
def load_sound (sample_rate : ℕ) (samples : List Stereo) : Sound :=
  { buf := samples, sample_rate := sample_rate, offset := soundOffset samples }

/-- Voice states of sampler.rs (`enum VoiceState`). -/
inductive VoiceState where
  | Free
  | Busy
deriving DecidableEq

/-- `pub const ROOT_PITCH: u8 = 48`. -/
def ROOT_PITCH : ℕ := 48

/-- `const DEFAULT_RELEASE: Duration = Duration::from_millis(100)`,
as seconds. -/
def DEFAULT_RELEASE : ℚ := 100 / 1000

/-- A sampler voice (sampler.rs `struct Voice`). -/
structure Voice where
  position : ℚ
  state : VoiceState
  pitch_ratio : ℚ
  pitch : ℕ
  volume : ℚ
  env : Envelope
  column : ℕ
  sound : Option Sound
  gate : ℚ
deriving DecidableEq

/-- `Voice::new` (sampler.rs lines 36-53): a Free voice with the hard-coded
envelope `Envelope::new(50ms, 100ms, 0.5, DEFAULT_RELEASE)`. -/
def Voice.new : Voice :=
  { position := 0, column := 0, pitch := 0, volume := 0, pitch_ratio := 0,
    state := VoiceState.Free,
    env := Envelope.new (50 / 1000) (100 / 1000) (1 / 2) DEFAULT_RELEASE,
    sound := none, gate := 0 }

/-- `fn map(v, from, to)` (sampler.rs lines 195-197). -/
def map (v : ℚ) (f t : ℚ × ℚ) : ℚ :=
  (v - f.1) * (t.2 - t.1) / (f.2 - f.1) + t.1

/-- Model of `f32::powf`, exact at the integer exponents that arise in the
verified claims (pitch offsets that are multiples of 12 semitones, and dB
values that are multiples of 20); at a non-integer exponent the model
returns the default value 0, and no verified statement depends on it. -/
def powf (base e : ℚ) : ℚ :=
  if e.den = 1 then base ^ e.num else 0

/-- `fn gain_factor(db)` (sampler.rs lines 152-154). -/
def gain_factor (db : ℚ) : ℚ := powf 10 (db / 20)

/-- The `as i8` reinterpretation of a `u8` value. -/
def asI8 (n : ℕ) : ℤ :=
  if n % 256 < 128 then (n % 256 : ℤ) else (n % 256 : ℤ) - 256

/-- Wrap-around of `i8` arithmetic (release-mode two's-complement
semantics of the subtraction `pitch as i8 - ROOT_PITCH as i8`). -/
def i8wrap (z : ℤ) : ℤ := (z + 128) % 256 - 128

/-- The `position as usize` cast of `render`: `f32`-to-`usize` casts
truncate toward zero and saturate at 0 for negative values, which on the
rationals is the floor clamped to ℕ. -/
def f32ToUsize (q : ℚ) : ℕ := q.floor.toNat

/-- The sampler device (sampler.rs `struct Sampler`). -/
structure Sampler where
  voices : List Voice
deriving DecidableEq

/-- `Sampler::new` (sampler.rs lines 102-108): a pool of exactly 8 fresh
voices. -/
def Sampler.new : Sampler := ⟨List.replicate 8 Voice.new⟩

/-- Embedding of the `self.voices.iter_mut().find(p)`-then-mutate pattern
used by `note_on`, `note_off` and `stop_note`: apply `f` to the first
element satisfying `p`, leaving the list unchanged when none does. -/
def updateFirst (p : α → Prop) [DecidablePred p] (f : α → α) : List α → List α
  | [] => []
  | x :: xs => if p x then f x :: xs else x :: updateFirst p f xs

/-- `Sampler::stop_note` (sampler.rs lines 140-149): drop the gate of the
first Busy voice on `column` and shorten its release to 5 ms. -/
def Sampler.stop_note (s : Sampler) (column : ℕ) : Sampler :=
  ⟨updateFirst (fun v => v.state = VoiceState.Busy ∧ v.column = column)
    (fun v => { v with gate := 0, env := { v.env with release := 5 / 1000 } })
    s.voices⟩

/-- `Sampler::note_off` (sampler.rs lines 130-138): drop the gate of the
first Busy voice matching both `column` and `pitch`. -/
def Sampler.note_off (s : Sampler) (column pitch : ℕ) : Sampler :=
  ⟨updateFirst
    (fun v => v.state = VoiceState.Busy ∧ v.column = column ∧ v.pitch = pitch)
    (fun v => { v with gate := 0 }) s.voices⟩

/-- `Sampler::note_on` (sampler.rs lines 110-128). `sampleRate` stands for
the crate-level constant `SAMPLE_RATE`, which is not under src/ (spec §6:
the rate is fixed at engine construction, e.g. 48000 Hz), so it is passed
as a parameter. When no Free voice exists the event is dropped (the
`eprintln!` is a no-op on the state). -/
def Sampler.note_on (s : Sampler) (sound : Sound) (column pitch velocity : ℕ)
    (sampleRate : ℕ) : Sampler :=
  let s1 := s.stop_note column
  ⟨updateFirst (fun v => v.state = VoiceState.Free)
    (fun v =>
      let p : ℤ := i8wrap (asI8 pitch - asI8 ROOT_PITCH)
      { v with
        gate := 1,
        state := VoiceState.Busy,
        env := { v.env with release := DEFAULT_RELEASE },
        pitch := pitch,
        volume := gain_factor (map (velocity : ℚ) (0, 127) (-60, 0)),
        column := column,
        pitch_ratio := powf 2 ((p : ℚ) / 12) *
          ((sound.sample_rate : ℚ) / (sampleRate : ℚ)),
        position := (sound.offset : ℚ),
        sound := some sound })
    s1.voices⟩

/-- The inner per-frame loop of `Sampler::render` (sampler.rs lines
163-180) for one voice over the destination buffer. Returns `none` when
the Rust code would panic on an out-of-bounds `sound.buf` read; on the
voice-end condition `position >= buf.len() - 1` the voice is freed and the
loop breaks, leaving the remaining destination frames untouched. -/
def voiceLoop (dt : ℚ) (v : Voice) (snd : Sound) :
    List Stereo → Option (Voice × List Stereo)
  | [] => some (v, [])
  | dst :: rest =>
    let pos := f32ToUsize v.position
    if h : pos + 1 < snd.buf.length then
      let weight : ℚ := v.position - (pos : ℚ)
      let inverse_weight := 1 - weight
      let frame := snd.buf.get ⟨pos, Nat.lt_of_succ_lt h⟩
      let next_frame := snd.buf.get ⟨pos + 1, h⟩
      let new_frame := frame * inverse_weight + next_frame * weight
      let ev := v.env.value dt v.gate
      let dst' := dst + new_frame * v.volume * ev.1
      let v' := { v with position := v.position + v.pitch_ratio, env := ev.2 }
      if ((snd.buf.length - 1 : ℕ) : ℚ) ≤ v'.position then
        some ({ v' with state := VoiceState.Free, sound := none }, dst' :: rest)
      else
        (voiceLoop dt v' snd rest).map (fun q => (q.1, dst' :: q.2))
    else none

/-- One voice's pass of `Sampler::render` (sampler.rs lines 158-185): Free
voices are skipped; a Busy voice's sound is unwrapped (`none` models the
panic when it is absent); after the inner loop the voice is released if
its envelope reached Idle. -/
def renderVoice (dt : ℚ) (v : Voice) (buffer : List Stereo) :
    Option (Voice × List Stereo) :=
  if v.state = VoiceState.Free then some (v, buffer)
  else
    match v.sound with
    | none => none
    | some snd =>
      (voiceLoop dt v snd buffer).map (fun q =>
        if q.1.env.state = EnvelopeState.Idle then
          ({ q.1 with state := VoiceState.Free, sound := none }, q.2)
        else q)

/-- The voice fold of `Sampler::render`: voices are processed in pool
order, each mixing into the buffer produced by the previous ones. -/
def renderVoices (dt : ℚ) : List Voice → List Stereo → Option (List Voice × List Stereo)
  | [], buffer => some ([], buffer)
  | v :: vs, buffer =>
    (renderVoice dt v buffer).bind (fun q =>
      (renderVoices dt vs q.2).map (fun r => (q.1 :: r.1, r.2)))

/-- `Sampler::render` (sampler.rs lines 157-186). `sampleRate` stands for
the crate constant `SAMPLE_RATE` (see `Sampler.note_on`); the envelope is
advanced by one output-sample period per frame (spec §4.1). -/
def Sampler.render (s : Sampler) (sampleRate : ℕ) (buffer : List Stereo) :
    Option (Sampler × List Stereo) :=
  (renderVoices (1 / (sampleRate : ℚ)) s.voices buffer).map
    (fun p => (⟨p.1⟩, p.2))

/-- `crate::pattern::NoteEvent` as used by `send_event` (spec §3: track,
pitch, sound index; pitch 255 is reserved for note-off). -/
structure NoteEvent where
  track : ℕ
  pitch : ℕ
  sound : ℕ
deriving DecidableEq

/-- `Sampler::send_event` (sampler.rs lines 188-192). The `TrackContext`
sound lookup (`ctx.sound(event.sound.into())`, from `crate::engine`, not
under src/) is modelled as a function from sound indices to optional
sounds. When the sound is present, `note_on` is invoked with the event's
track, the event's pitch and the fixed velocity 100. -/
def Sampler.send_event (s : Sampler) (lookup : ℕ → Option Sound)
    (event : NoteEvent) (sampleRate : ℕ) : Sampler :=
  match lookup event.sound with
  | some snd => s.note_on snd event.track event.pitch 100 sampleRate
  | none => s

/-- Scenario S1 sound: a mono sound of 4 frames `[0.0, 1.0, 0.0, -1.0]`
(each sample duplicated to both channels by the mono decode path of
`load_sound`) at native rate 48000 Hz. -/
def sndS1 : Sound := load_sound 48000 [⟨0, 0⟩, ⟨1, 1⟩, ⟨0, 0⟩, ⟨-1, -1⟩]

/-- Scenario S1 envelope, as stipulated by the claim: attack = decay =
release = 0 and sustain = 1, starting Idle. -/
def envS1 : Envelope :=
  { attack := 0, decay := 0, sustain := 1, release := 0,
    state := EnvelopeState.Idle, amplitude := 0, time := 0, phaseStart := 0 }

/-- Scenario S1 sampler state: a fresh pool whose voices carry the
stipulated no-op envelope, after `note_on(sndS1, column 0, pitch 48,
velocity 127)` at engine rate 48000 Hz. -/
def sS1 : Sampler :=
  Sampler.note_on ⟨List.replicate 8 { Voice.new with env := envS1 }⟩ sndS1 0 48 127 48000

/-- A sound whose first frame is already non-silent: frames
`[(1,1), (0,0), (0,0), (0,0)]` at 48000 Hz, offset 0. -/
def sndOnset : Sound := load_sound 48000 [⟨1, 1⟩, ⟨0, 0⟩, ⟨0, 0⟩, ⟨0, 0⟩]

/-- A fresh sampler right after `note_on(sndOnset, column 0, pitch 48,
velocity 127)` at engine rate 48000 Hz (default voice envelope, 50 ms
attack). -/
def sC9 : Sampler := Sampler.note_on Sampler.new sndOnset 0 48 127 48000

/-- A sound whose only non-silent frame is its last: frames
`[(0,0), (1,1)]`, so `load_sound` computes offset 1 = frames - 1. -/
def sndLastOnset : Sound := load_sound 48000 [⟨0, 0⟩, ⟨1, 1⟩]

/-- A fresh sampler right after `note_on(sndLastOnset, column 0, pitch 48,
velocity 127)` at engine rate 48000 Hz: the allocated voice starts at
position `offset = frames - 1`. -/
def sC4 : Sampler := Sampler.note_on Sampler.new sndLastOnset 0 48 127 48000

/-- A voice marked Busy on column 0 (otherwise fresh), for exercising the
same-column steal path. -/
def vBusy0 : Voice := { Voice.new with state := VoiceState.Busy }

/-- A two-voice pool: a Busy voice on column 0 followed by a Free voice. -/
def sPair : Sampler := ⟨[vBusy0, Voice.new]⟩

/-- A pool whose single voice is Busy (no Free voice anywhere). -/
def sBusy1 : Sampler := ⟨[vBusy0]⟩

/-- A single fresh-voice pool. -/
def sOne : Sampler := ⟨[Voice.new]⟩

/-- A Free voice left with the 5 ms fast release of a previous steal. -/
def vFastRel : Voice :=
  { Voice.new with env := { Voice.new.env with release := 5 / 1000 } }

/-- A single-voice pool whose voice still carries the 5 ms fast release. -/
def sFastRel : Sampler := ⟨[vFastRel]⟩

/-- C1: the claimed end-to-end output `[1.0, 0.0, -1.0, 0.0]` is wrong on
the code: rendering 4 frames of scenario S1 into a zero buffer produces
`[1.0, 0.0, 0.0, 0.0]` — the trailing `-1.0` frame is never emitted, since
the voice frees as soon as its position reaches `frames - 1 = 3` (during
output frame 1), before the last source frame can be interpolated. -/
theorem C1_counterexample :
    (Sampler.render sS1 48000 (List.replicate 4 ⟨0, 0⟩)).map Prod.snd =
      some [⟨1, 1⟩, ⟨0, 0⟩, ⟨0, 0⟩, ⟨0, 0⟩] ∧
    some [(⟨1, 1⟩ : Stereo), ⟨0, 0⟩, ⟨0, 0⟩, ⟨0, 0⟩] ≠
      some [(⟨1, 1⟩ : Stereo), ⟨0, 0⟩, ⟨-1, -1⟩, ⟨0, 0⟩] := by decide!

/-- C1 (amended): with the S1 sound (silence offset 1) and the stipulated
no-op envelope, a single 4-frame render into a zero buffer produces
`[1.0, 0.0, 0.0, 0.0]` on both channels, and the voice is Free afterwards
(it frees during output frame 1, when its position reaches
`frames - 1 = 3`). -/
theorem C1_end_to_end_corrected :
    sndS1.offset = 1 ∧
    (Sampler.render sS1 48000 (List.replicate 4 ⟨0, 0⟩)).map
        (fun p => (p.2, p.1.voices.map Voice.state)) =
      some ([⟨1, 1⟩, ⟨0, 0⟩, ⟨0, 0⟩, ⟨0, 0⟩],
        List.replicate 8 VoiceState.Free) := by decide!

/-- C2: the offset scan of `load_sound` compares raw signed samples with
`< 0.01` instead of absolute values, so a fully negative onset is treated
as silence: on the decoded frames `[(-1,-1), (1,1)]` the code computes
offset 1, while the spec-mandated absolute-value scan yields 0. -/
theorem C2_offset_code_bug :
    soundOffset [⟨-1, -1⟩, ⟨1, 1⟩] = 1 ∧
    soundOffsetSpec [⟨-1, -1⟩, ⟨1, 1⟩] = 0 ∧
    (load_sound 48000 [⟨-1, -1⟩, ⟨1, 1⟩]).offset ≠
      soundOffsetSpec [⟨-1, -1⟩, ⟨1, 1⟩] := by decide!

/-- C3: `send_event` never checks for the note-off pitch 255: on a fresh
sampler, an event with pitch 255 whose sound index resolves starts a new
note (the first voice becomes Busy with pitch 255 and gate 1) instead of
invoking `note_off`, which on a fresh sampler would have left the state
unchanged. -/
theorem C3_noteoff_code_bug :
    ((Sampler.send_event Sampler.new (fun _ => some sndOnset) ⟨0, 255, 3⟩ 48000).voices.map
        (fun v => (v.state, v.pitch, v.gate)))[0]? =
      some (VoiceState.Busy, 255, 1) ∧
    Sampler.send_event Sampler.new (fun _ => some sndOnset) ⟨0, 255, 3⟩ 48000 ≠
      Sampler.new := by decide!

/-- C4: for a sound whose offset is its last frame index, `note_on` sets
the read position to `frames - 1`, which is outside `[0, frames - 1)`; the
next render then reads `buf[frames]` out of bounds (a panic, modelled as
`none`). -/
theorem C4_position_code_bug :
    sndLastOnset.offset + 1 = sndLastOnset.buf.length ∧
    (sC4.voices.map (fun v => (v.state, v.position)))[0]? =
      some (VoiceState.Busy, 1) ∧
    ¬ ((1 : ℚ) < ((sndLastOnset.buf.length - 1 : ℕ) : ℚ)) ∧
    Sampler.render sC4 48000 [⟨0, 0⟩] = none := by decide!

/-- C9: rendering twice into a zero buffer does not double the output: the
voice advances between the two calls, so the second render contributes the
advanced state's frames. Concretely, after `note_on` on `sndOnset` a
single 1-frame render yields `1/2400` (the first attack-ramp step), and a
second render into the same buffer adds `0` (the source frame at the
advanced position), not another `1/2400`. -/
theorem C9_counterexample :
    (Sampler.render sC9 48000 [⟨0, 0⟩]).map Prod.snd = some [⟨1/2400, 1/2400⟩] ∧
    ((Sampler.render sC9 48000 [⟨0, 0⟩]).bind
        (fun p => Sampler.render p.1 48000 p.2)).map Prod.snd =
      some [⟨1/2400, 1/2400⟩] ∧
    (⟨1/2400, 1/2400⟩ : Stereo) ≠ ⟨1/2400, 1/2400⟩ + ⟨1/2400, 1/2400⟩ := by decide!

theorem Stereo.add_assoc (a b c : Stereo) : a + b + c = a + (b + c) := by
  simp only [Stereo.add_def, Stereo.mk.injEq]
  exact ⟨by ring, by ring⟩

theorem Stereo.add_zero (a : Stereo) : a + ⟨0, 0⟩ = a := by
  simp [Stereo.add_def]

theorem updateFirst_length (p : α → Prop) [DecidablePred p] (f : α → α)
    (l : List α) : (updateFirst p f l).length = l.length := by
  induction l with
  | nil => rfl
  | cons x xs ih =>
    simp only [updateFirst]
    split
    · rfl
    · simp [ih]

theorem updateFirst_of_forall_not (p : α → Prop) [DecidablePred p] (f : α → α)
    (l : List α) (h : ∀ x ∈ l, ¬ p x) : updateFirst p f l = l := by
  induction l with
  | nil => rfl
  | cons x xs ih =>
    simp only [updateFirst, if_neg (h x (List.mem_cons_self x xs))]
    rw [ih (fun y hy => h y (List.mem_cons_of_mem x hy))]

theorem updateFirst_eq_set (p : α → Prop) [DecidablePred p] (f : α → α) :
    ∀ (l : List α) (i : ℕ) (x : α), l[i]? = some x → p x →
      (∀ y ∈ l.take i, ¬ p y) → updateFirst p f l = l.set i (f x) := by
  intro l
  induction l with
  | nil => intro i x h; simp at h
  | cons a as ih =>
    intro i x h hp hmin
    cases i with
    | zero =>
      rw [List.getElem?_cons_zero] at h
      obtain rfl : a = x := by injection h
      simp only [updateFirst, if_pos hp, List.set_cons_zero]
    | succ n =>
      have hna : ¬ p a := hmin a (by simp [List.take_succ_cons])
      rw [List.getElem?_cons_succ] at h
      simp only [updateFirst, if_neg hna, List.set_cons_succ]
      rw [ih n x h hp (fun y hy => hmin y (by simp [List.take_succ_cons, hy]))]

theorem updateFirst_mem (p : α → Prop) [DecidablePred p] (f : α → α) :
    ∀ (l : List α) (x : α), x ∈ updateFirst p f l → x ∈ l ∨ ∃ y ∈ l, x = f y := by
  intro l
  induction l with
  | nil => intro x h; simp [updateFirst] at h
  | cons a as ih =>
    intro x h
    simp only [updateFirst] at h
    split at h
    · rcases List.mem_cons.mp h with h1 | h1
      · exact Or.inr ⟨a, List.mem_cons_self a as, h1⟩
      · exact Or.inl (List.mem_cons_of_mem a h1)
    · rcases List.mem_cons.mp h with h1 | h1
      · exact Or.inl (h1 ▸ List.mem_cons_self a as)
      · rcases ih x h1 with h2 | ⟨y, hy, h2⟩
        · exact Or.inl (List.mem_cons_of_mem a h2)
        · exact Or.inr ⟨y, List.mem_cons_of_mem a hy, h2⟩

theorem mem_take_set (l : List α) (j : ℕ) (a : α) :
    ∀ (i : ℕ) (y : α), y ∈ (l.set j a).take i → y = a ∨ y ∈ l.take i := by
  induction l generalizing j with
  | nil => intro i y h; simp at h
  | cons x xs ih =>
    intro i y h
    cases j with
    | zero =>
      cases i with
      | zero => simp at h
      | succ n =>
        rw [List.set_cons_zero, List.take_succ_cons] at h
        rcases List.mem_cons.mp h with h1 | h1
        · exact Or.inl h1
        · exact Or.inr (by simp [List.take_succ_cons, h1])
    | succ m =>
      cases i with
      | zero => simp at h
      | succ n =>
        rw [List.set_cons_succ, List.take_succ_cons] at h
        rcases List.mem_cons.mp h with h1 | h1
        · exact Or.inr (by simp [List.take_succ_cons, h1])
        · rcases ih m n y h1 with h2 | h2
          · exact Or.inl h2
          · exact Or.inr (by simp [List.take_succ_cons, h2])



theorem voiceLoop_buffer_length (dt : ℚ) (snd : Sound) :
    ∀ (b : List Stereo) (v v' : Voice) (b' : List Stereo),
      voiceLoop dt v snd b = some (v', b') → b'.length = b.length := by
  intro b
  induction b with
  | nil =>
    intro v v' b' h
    simp only [voiceLoop, Option.some.injEq, Prod.mk.injEq] at h
    rw [← h.2]
  | cons dst rest ih =>
    intro v v' b' h
    simp only [voiceLoop] at h
    split at h
    · split at h
      · simp only [Option.some.injEq, Prod.mk.injEq] at h
        rw [← h.2, List.length_cons, List.length_cons]
      · rw [Option.map_eq_some'] at h
        obtain ⟨q, hq, h2⟩ := h
        simp only [Prod.ext_iff] at h2
        rw [← h2.2, List.length_cons, List.length_cons, ih _ _ _ hq]
    · simp at h

theorem renderVoice_buffer_length (dt : ℚ) (v : Voice) (b : List Stereo)
    (v' : Voice) (b' : List Stereo) (h : renderVoice dt v b = some (v', b')) :
    b'.length = b.length := by
  simp only [renderVoice] at h
  split at h
  · simp only [Option.some.injEq, Prod.mk.injEq] at h
    rw [← h.2]
  · cases hs : v.sound with
    | none => rw [hs] at h; exact Option.noConfusion h
    | some snd =>
      rw [hs] at h
      simp only [Option.map_eq_some'] at h
      obtain ⟨q, hq, h2⟩ := h
      have hb := voiceLoop_buffer_length dt snd b v q.1 q.2 (by simpa using hq)
      split at h2 <;> simp only [Prod.ext_iff] at h2 <;> rw [← h2.2] <;> exact hb

theorem renderVoices_buffer_length (dt : ℚ) :
    ∀ (vs : List Voice) (b : List Stereo) (vs' : List Voice) (b' : List Stereo),
      renderVoices dt vs b = some (vs', b') → b'.length = b.length := by
  intro vs
  induction vs with
  | nil =>
    intro b vs' b' h
    simp only [renderVoices, Option.some.injEq, Prod.mk.injEq] at h
    rw [← h.2]
  | cons v vs ih =>
    intro b vs' b' h
    simp only [renderVoices, Option.bind_eq_some, Option.map_eq_some'] at h
    obtain ⟨q, hq, r, hr, h2⟩ := h
    simp only [Prod.ext_iff] at h2
    rw [← h2.2, ih _ _ _ hr, renderVoice_buffer_length dt v b q.1 q.2 (by simpa using hq)]

theorem renderVoices_voices_length (dt : ℚ) :
    ∀ (vs : List Voice) (b : List Stereo) (vs' : List Voice) (b' : List Stereo),
      renderVoices dt vs b = some (vs', b') → vs'.length = vs.length := by
  intro vs
  induction vs with
  | nil =>
    intro b vs' b' h
    simp only [renderVoices, Option.some.injEq, Prod.mk.injEq] at h
    rw [← h.1]
  | cons v vs ih =>
    intro b vs' b' h
    simp only [renderVoices, Option.bind_eq_some, Option.map_eq_some'] at h
    obtain ⟨q, hq, r, hr, h2⟩ := h
    simp only [Prod.ext_iff] at h2
    rw [← h2.1, List.length_cons, List.length_cons, ih _ _ _ hr]

theorem replicate_eq_zipWith_zero (n : ℕ) (a : Stereo) :
    List.replicate n a =
      List.zipWith (fun x y => x + y) (List.replicate n a) (List.replicate n ⟨0, 0⟩) := by
  induction n with
  | zero => rfl
  | succ m ih =>
    simp only [List.replicate_succ]
    rw [List.zipWith_cons_cons, Stereo.add_zero, ← ih]

theorem zipWith_replicate_add (a : Stereo) :
    ∀ (out : List Stereo),
      List.zipWith (fun x y => x + y) (List.replicate out.length a) out =
        out.map (fun fr => a + fr) := by
  intro out
  induction out with
  | nil => rfl
  | cons x xs ih =>
    rw [List.length_cons, List.replicate_succ, List.zipWith_cons_cons, List.map_cons, ih]

theorem voiceLoop_shift (dt : ℚ) (snd : Sound) :
    ∀ (b c : List Stereo) (v : Voice), c.length = b.length →
      voiceLoop dt v snd (List.zipWith (fun x y => x + y) c b) =
        Option.map (fun q => (q.1, List.zipWith (fun x y => x + y) c q.2))
          (voiceLoop dt v snd b) := by
  intro b
  induction b with
  | nil =>
    intro c v hc
    rw [List.length_eq_zero.mp hc]
    rfl
  | cons dst rest ih =>
    intro c v hc
    cases c with
    | nil => simp at hc
    | cons e cs =>
      have hcs : cs.length = rest.length := by simpa using hc
      rw [List.zipWith_cons_cons]
      simp only [voiceLoop]
      split
      · split
        · simp only [Option.map_some', List.zipWith_cons_cons]
          rw [Stereo.add_assoc]
        · rw [ih cs _ hcs]
          cases voiceLoop dt _ snd rest with
          | none => rfl
          | some q =>
            simp only [Option.map_some', List.zipWith_cons_cons]
            rw [Stereo.add_assoc]
      · rfl

theorem renderVoice_shift (dt : ℚ) (v : Voice) (b c : List Stereo)
    (hc : c.length = b.length) :
    renderVoice dt v (List.zipWith (fun x y => x + y) c b) =
      Option.map (fun q => (q.1, List.zipWith (fun x y => x + y) c q.2))
        (renderVoice dt v b) := by
  simp only [renderVoice]
  split
  · rfl
  · cases v.sound with
    | none => rfl
    | some snd =>
      simp only []
      rw [voiceLoop_shift dt snd b c v hc]
      cases voiceLoop dt v snd b with
      | none => rfl
      | some q =>
        simp only [Option.map_some']
        split <;> rfl

theorem renderVoices_shift (dt : ℚ) :
    ∀ (vs : List Voice) (b c : List Stereo), c.length = b.length →
      renderVoices dt vs (List.zipWith (fun x y => x + y) c b) =
        Option.map (fun q => (q.1, List.zipWith (fun x y => x + y) c q.2))
          (renderVoices dt vs b) := by
  intro vs
  induction vs with
  | nil => intro b c hc; rfl
  | cons v vs ih =>
    intro b c hc
    simp only [renderVoices]
    rw [renderVoice_shift dt v b c hc]
    cases hq : renderVoice dt v b with
    | none => rfl
    | some q =>
      simp only [Option.map_some', Option.some_bind]
      rw [ih q.2 c (by rw [hc, renderVoice_buffer_length dt v b q.1 q.2 (by simpa using hq)])]
      cases renderVoices dt vs q.2 with
      | none => rfl
      | some r => rfl

/-- C9 (amended): `render` is additive in the destination buffer: rendering
any sampler state into a buffer holding the frame value `V` everywhere
yields, frame by frame, `V` plus the contribution the same render adds to a
zero buffer, with the identical resulting sampler state (and identically,
`none` — a panic — on both buffers). The second half of the original claim
(double render = twice the single render) is refuted by
`C9_counterexample`: the second render contributes the frames of the
advanced voice state, not a copy of the first contribution. -/
theorem C9_render_additive (sr : ℕ) (s : Sampler) (n : ℕ) (V : ℚ) :
    Sampler.render s sr (List.replicate n ⟨V, V⟩) =
      Option.map (fun p => (p.1, p.2.map (fun fr => Stereo.mk V V + fr)))
        (Sampler.render s sr (List.replicate n ⟨0, 0⟩)) := by
  unfold Sampler.render
  rw [replicate_eq_zipWith_zero n ⟨V, V⟩,
    renderVoices_shift (1 / (sr : ℚ)) s.voices (List.replicate n ⟨0, 0⟩)
      (List.replicate n ⟨V, V⟩) (by simp)]
  cases hq : renderVoices (1 / (sr : ℚ)) s.voices (List.replicate n ⟨0, 0⟩) with
  | none => rfl
  | some q =>
    have hlen : q.2.length = n := by
      rw [renderVoices_buffer_length (1 / (sr : ℚ)) s.voices _ q.1 q.2 (by simpa using hq)]
      simp
    simp only [Option.map_some']
    rw [← hlen, zipWith_replicate_add]

theorem voiceLoop_advance (dt : ℚ) (snd : Sound) :
    ∀ (b : List Stereo) (v v' : Voice) (b' : List Stereo),
      voiceLoop dt v snd b = some (v', b') →
      v'.state = VoiceState.Free ∨
        v'.position = v.position + (b.length : ℚ) * v.pitch_ratio := by
  intro b
  induction b with
  | nil =>
    intro v v' b' h
    simp only [voiceLoop, Option.some.injEq, Prod.mk.injEq] at h
    right
    rw [← h.1]
    simp
  | cons dst rest ih =>
    intro v v' b' h
    simp only [voiceLoop] at h
    split at h
    · split at h
      · simp only [Option.some.injEq, Prod.mk.injEq] at h
        left
        rw [← h.1]
      · rw [Option.map_eq_some'] at h
        obtain ⟨q, hq, h2⟩ := h
        simp only [Prod.ext_iff] at h2
        rcases ih _ _ _ hq with hF | hP
        · left; rw [← h2.1]; exact hF
        · right
          rw [← h2.1, hP]
          simp only [List.length_cons]
          push_cast
          ring
    · simp at h

/-- Characterization of `stop_note` when `j` is the first index holding a
Busy voice on `column`: that voice's gate drops to 0 and its release is
shortened to 5 ms, all other voices untouched. -/
theorem stop_note_voices (s : Sampler) (c : ℕ) (j : ℕ) (vj : Voice)
    (hvj : s.voices[j]? = some vj)
    (hpj : vj.state = VoiceState.Busy ∧ vj.column = c)
    (hjmin : ∀ y ∈ s.voices.take j, ¬ (y.state = VoiceState.Busy ∧ y.column = c)) :
    (s.stop_note c).voices = s.voices.set j
      { vj with gate := 0, env := { vj.env with release := 5 / 1000 } } :=
  updateFirst_eq_set _ _ s.voices j vj hvj hpj hjmin

/-- Characterization of `note_on` when `i` is the first index holding a
Free voice after the same-column `stop_note`: that voice is allocated with
the claim's field values, all other voices untouched. -/
theorem note_on_voices (s : Sampler) (snd : Sound) (c pt vel sr : ℕ)
    (i : ℕ) (vi : Voice)
    (hvi : (s.stop_note c).voices[i]? = some vi)
    (hfree : vi.state = VoiceState.Free)
    (hmin : ∀ y ∈ (s.stop_note c).voices.take i, ¬ y.state = VoiceState.Free) :
    (Sampler.note_on s snd c pt vel sr).voices =
      (s.stop_note c).voices.set i
        { vi with
          gate := 1, state := VoiceState.Busy,
          env := { vi.env with release := DEFAULT_RELEASE },
          pitch := pt,
          volume := gain_factor (map (vel : ℚ) (0, 127) (-60, 0)),
          column := c,
          pitch_ratio := powf 2 ((i8wrap (asI8 pt - asI8 ROOT_PITCH) : ℚ) / 12) *
            ((snd.sample_rate : ℚ) / (sr : ℚ)),
          position := (snd.offset : ℚ),
          sound := some snd } :=
  updateFirst_eq_set _ _ (s.stop_note c).voices i vi hvi hfree hmin

/-- C5: `note_on` on a column that already has a Busy voice (`j` is the
first such pool index) first fast-releases that voice — its gate drops to 0
and its envelope release becomes 5 ms — and then allocates the first Free
voice (`i` in pool order, necessarily a different slot): that voice is
marked Busy with gate 1, its column and pitch set from the arguments and
its read position set to `sound.offset`. -/
theorem C5_note_on_steal_alloc (s : Sampler) (snd : Sound) (c pt vel sr : ℕ)
    (j i : ℕ) (vj vi : Voice)
    (hvj : s.voices[j]? = some vj)
    (hpj : vj.state = VoiceState.Busy ∧ vj.column = c)
    (hjmin : ∀ y ∈ s.voices.take j, ¬ (y.state = VoiceState.Busy ∧ y.column = c))
    (hvi : s.voices[i]? = some vi)
    (hpi : vi.state = VoiceState.Free)
    (himin : ∀ y ∈ s.voices.take i, ¬ y.state = VoiceState.Free) :
    i ≠ j ∧
    (Sampler.note_on s snd c pt vel sr).voices[j]?.map
        (fun v => (v.gate, v.env.release)) = some (0, 5 / 1000) ∧
    (Sampler.note_on s snd c pt vel sr).voices[i]?.map
        (fun v => (v.state, v.gate, v.column, v.pitch, v.position)) =
      some (VoiceState.Busy, 1, c, pt, (snd.offset : ℚ)) := by
  have hij : i ≠ j := by
    intro he
    subst he
    rw [hvj] at hvi
    obtain rfl : vj = vi := by injection hvi
    rw [hpj.1] at hpi
    exact VoiceState.noConfusion hpi
  have hstop := stop_note_voices s c j vj hvj hpj hjmin
  have hj_lt : j < s.voices.length := (List.getElem?_eq_some_iff.mp hvj).1
  have hvi' : (s.stop_note c).voices[i]? = some vi := by
    rw [hstop, List.getElem?_set_ne (Ne.symm hij)]
    exact hvi
  have hmin' : ∀ y ∈ (s.stop_note c).voices.take i, ¬ y.state = VoiceState.Free := by
    rw [hstop]
    intro y hy
    rcases mem_take_set s.voices j
        { vj with gate := 0, env := { vj.env with release := 5 / 1000 } } i y hy with
      h1 | h1
    · rw [h1]
      simp [hpj.1]
    · exact himin y h1
  have halloc := note_on_voices s snd c pt vel sr i vi hvi' hpi hmin'
  refine ⟨hij, ?_, ?_⟩
  · rw [halloc, List.getElem?_set_ne hij, hstop, List.getElem?_set_self hj_lt]
    rfl
  · rw [halloc, List.getElem?_set_self (List.getElem?_eq_some_iff.mp hvi').1]
    rfl

theorem C5_witness :
    (1 : ℕ) ≠ 0 ∧
    (Sampler.note_on sPair sndOnset 0 60 100 48000).voices[0]?.map
        (fun v => (v.gate, v.env.release)) = some (0, 5 / 1000) ∧
    (Sampler.note_on sPair sndOnset 0 60 100 48000).voices[1]?.map
        (fun v => (v.state, v.gate, v.column, v.pitch, v.position)) =
      some (VoiceState.Busy, 1, 0, 60, (sndOnset.offset : ℚ)) :=
  C5_note_on_steal_alloc sPair sndOnset 0 60 100 48000 0 1 vBusy0 Voice.new
    (by decide!) (by decide!) (by decide!) (by decide!) (by decide!) (by decide!)

/-- C7: with a 48000 Hz sound on a 48000 Hz engine, `note_on` sets the
allocated voice's pitch ratio to exactly 1 at pitch 48, 2 at pitch 60 and
1/2 at pitch 36; and within one render call the voice's read position
advances by exactly the pitch ratio per processed output frame — a voice
still Busy after the inner loop has advanced by `buffer.length ×
pitch_ratio` source frames. -/
theorem C7_pitch_ratio (s : Sampler) (snd : Sound) (c vel : ℕ)
    (i : ℕ) (vi : Voice)
    (h48 : snd.sample_rate = 48000)
    (hvi : (s.stop_note c).voices[i]? = some vi)
    (hfree : vi.state = VoiceState.Free)
    (hmin : ∀ y ∈ (s.stop_note c).voices.take i, ¬ y.state = VoiceState.Free) :
    (Sampler.note_on s snd c 48 vel 48000).voices[i]?.map Voice.pitch_ratio = some 1 ∧
    (Sampler.note_on s snd c 60 vel 48000).voices[i]?.map Voice.pitch_ratio = some 2 ∧
    (Sampler.note_on s snd c 36 vel 48000).voices[i]?.map Voice.pitch_ratio =
      some (1 / 2) ∧
    (∀ (dt : ℚ) (snd0 : Sound) (b : List Stereo) (v v' : Voice) (b' : List Stereo),
      voiceLoop dt v snd0 b = some (v', b') →
      v'.state = VoiceState.Free ∨
        v'.position = v.position + (b.length : ℚ) * v.pitch_ratio) := by
  have hi_lt : i < (s.stop_note c).voices.length :=
    (List.getElem?_eq_some_iff.mp hvi).1
  refine ⟨?_, ?_, ?_, fun dt snd0 b v v' b' h => voiceLoop_advance dt snd0 b v v' b' h⟩
  · rw [note_on_voices s snd c 48 vel 48000 i vi hvi hfree hmin,
      List.getElem?_set_self hi_lt]
    simp only [Option.map_some', Option.some.injEq]
    rw [h48]
    decide!
  · rw [note_on_voices s snd c 60 vel 48000 i vi hvi hfree hmin,
      List.getElem?_set_self hi_lt]
    simp only [Option.map_some', Option.some.injEq]
    rw [h48]
    decide!
  · rw [note_on_voices s snd c 36 vel 48000 i vi hvi hfree hmin,
      List.getElem?_set_self hi_lt]
    simp only [Option.map_some', Option.some.injEq]
    rw [h48]
    decide!

theorem C7_witness :
    (Sampler.note_on sOne sndOnset 0 48 127 48000).voices[0]?.map
      Voice.pitch_ratio = some 1 :=
  (C7_pitch_ratio sOne sndOnset 0 127 0 Voice.new
    (by decide!) (by decide!) (by decide!) (by decide!)).1

/-- C8: the volume `note_on` gives the allocated voice is
`10^(map(velocity, 0..127, -60..0) / 20)`; in particular velocity 127
yields 1.0 and velocity 0 yields 0.001; and `send_event` always invokes
`note_on` with the fixed velocity 100 when the event's sound resolves. -/
theorem C8_velocity_volume (s : Sampler) (snd : Sound) (c pt vel sr : ℕ)
    (i : ℕ) (vi : Voice)
    (hvi : (s.stop_note c).voices[i]? = some vi)
    (hfree : vi.state = VoiceState.Free)
    (hmin : ∀ y ∈ (s.stop_note c).voices.take i, ¬ y.state = VoiceState.Free) :
    (Sampler.note_on s snd c pt vel sr).voices[i]?.map Voice.volume =
      some (powf 10 (map (vel : ℚ) (0, 127) (-60, 0) / 20)) ∧
    gain_factor (map 127 (0, 127) (-60, 0)) = 1 ∧
    gain_factor (map 0 (0, 127) (-60, 0)) = 1 / 1000 ∧
    (∀ (s2 : Sampler) (lookup : ℕ → Option Sound) (ev : NoteEvent) (sr2 : ℕ)
        (snd2 : Sound), lookup ev.sound = some snd2 →
      Sampler.send_event s2 lookup ev sr2 =
        Sampler.note_on s2 snd2 ev.track ev.pitch 100 sr2) := by
  refine ⟨?_, by decide!, by decide!, ?_⟩
  · rw [note_on_voices s snd c pt vel sr i vi hvi hfree hmin,
      List.getElem?_set_self (List.getElem?_eq_some_iff.mp hvi).1]
    rfl
  · intro s2 lookup ev sr2 snd2 h
    simp only [Sampler.send_event, h]

theorem C8_witness :
    (Sampler.note_on sOne sndOnset 0 48 0 48000).voices[0]?.map Voice.volume =
      some (powf 10 (map ((0 : ℕ) : ℚ) (0, 127) (-60, 0) / 20)) :=
  (C8_velocity_volume sOne sndOnset 0 48 0 48000 0 Voice.new
    (by decide!) (by decide!) (by decide!)).1

/-- C10: whenever `note_on` allocates a voice, it sets that voice's
envelope release back to the 100 ms `DEFAULT_RELEASE` regardless of the
release it carried before — in particular a 5 ms fast release left behind
by `stop_note` on a freed slot never carries over to the next note. -/
theorem C10_release_reset (s : Sampler) (snd : Sound) (c pt vel sr : ℕ)
    (i : ℕ) (vi : Voice)
    (hvi : (s.stop_note c).voices[i]? = some vi)
    (hfree : vi.state = VoiceState.Free)
    (hmin : ∀ y ∈ (s.stop_note c).voices.take i, ¬ y.state = VoiceState.Free) :
    (Sampler.note_on s snd c pt vel sr).voices[i]?.map (fun v => v.env.release) =
      some DEFAULT_RELEASE := by
  rw [note_on_voices s snd c pt vel sr i vi hvi hfree hmin,
    List.getElem?_set_self (List.getElem?_eq_some_iff.mp hvi).1]
  rfl

theorem C10_witness :
    (Sampler.note_on sFastRel sndOnset 0 48 127 48000).voices[0]?.map
      (fun v => v.env.release) = some DEFAULT_RELEASE :=
  C10_release_reset sFastRel sndOnset 0 48 127 48000 0 vFastRel
    (by decide!) (by decide!) (by decide!)

/-- C6: the pool is exactly 8 voices from `Sampler::new` on and every
operation preserves the pool size, so at most 8 voices are ever Busy at a
render call; and when `note_on` finds no Free voice the event is dropped —
the state equals the plain `stop_note` result, so nothing changes beyond
the same-column fast-release and no voice is stolen from another column. -/
theorem C6_voice_pool :
    Sampler.new.voices.length = 8 ∧
    (∀ (s : Sampler) (snd : Sound) (c pt vel sr : ℕ),
      (Sampler.note_on s snd c pt vel sr).voices.length = s.voices.length) ∧
    (∀ (s : Sampler) (c : ℕ), (s.stop_note c).voices.length = s.voices.length) ∧
    (∀ (s : Sampler) (c pt : ℕ),
      (s.note_off c pt).voices.length = s.voices.length) ∧
    (∀ (s : Sampler) (lookup : ℕ → Option Sound) (ev : NoteEvent) (sr : ℕ),
      (Sampler.send_event s lookup ev sr).voices.length = s.voices.length) ∧
    (∀ (s : Sampler) (sr : ℕ) (b : List Stereo) (s' : Sampler) (b' : List Stereo),
      Sampler.render s sr b = some (s', b') → s'.voices.length = s.voices.length) ∧
    (∀ s : Sampler,
      s.voices.countP (fun v => v.state == VoiceState.Busy) ≤ s.voices.length) ∧
    (∀ (s : Sampler) (snd : Sound) (c pt vel sr : ℕ),
      (∀ v ∈ s.voices, v.state ≠ VoiceState.Free) →
      Sampler.note_on s snd c pt vel sr = s.stop_note c) := by
  refine ⟨rfl, ?_, ?_, ?_, ?_, ?_, ?_, ?_⟩
  · intro s snd c pt vel sr
    simp [Sampler.note_on, Sampler.stop_note, updateFirst_length]
  · intro s c
    simp [Sampler.stop_note, updateFirst_length]
  · intro s c pt
    simp [Sampler.note_off, updateFirst_length]
  · intro s lookup ev sr
    cases h : lookup ev.sound with
    | none => simp [Sampler.send_event, h]
    | some snd =>
      simp [Sampler.send_event, h, Sampler.note_on, Sampler.stop_note,
        updateFirst_length]
  · intro s sr b s' b' h
    simp only [Sampler.render, Option.map_eq_some'] at h
    obtain ⟨q, hq, h2⟩ := h
    simp only [Prod.ext_iff] at h2
    rw [← h2.1]
    exact renderVoices_voices_length (1 / (sr : ℚ)) s.voices b q.1 q.2
      (by simpa using hq)
  · intro s
    exact List.countP_le_length _
  · intro s snd c pt vel sr hfree
    show Sampler.mk _ = s.stop_note c
    rw [updateFirst_of_forall_not]
    · intro y hy
      rcases updateFirst_mem _ _ s.voices y hy with h1 | ⟨z, hz, h1⟩
      · exact hfree y h1
      · rw [h1]
        simpa using hfree z hz

theorem C6_witness :
    Sampler.note_on sBusy1 sndOnset 0 48 100 48000 = Sampler.stop_note sBusy1 0 :=
  C6_voice_pool.2.2.2.2.2.2.2 sBusy1 sndOnset 0 48 100 48000 (by decide!)
